import Mathlib

/-!
Shallow embedding of `src/alchemy.py` (DnDAlchemy): a recursive backtracking
resolver that finds an ordered path of recipe applications producing a target
element, either by combining reagents into a result or splitting a result back
into reagents.

Modelling conventions:
* Python's unbounded recursion in `get_recipe_path` is embedded with an explicit
  fuel parameter; `none` means the fuel ran out, `some (solved, path)` mirrors
  the Python return value `(solved, recipe_path)`.
* Python object identity (used by `previous_recipe in recipes_to_target` /
  `.remove`, since `Recipe` defines no `__eq__`) is embedded by pairing each
  catalog recipe with its index via `List.enum`: two catalog entries are the
  same object iff they sit at the same index.
* The dynamically typed expression `self.reagents + self.result` (a Python
  `list + str`) is embedded with a small dynamic value type `PyVal` and the
  semantics of Python's `+` on it, so that the `TypeError` it raises is visible.
-/

/-- The `base_ingredients` list from the source, verbatim. -/
def base_ingredients : List String := [
  "DF", "CT", "BL", "AP",
  "OB", "PM", "HB", "GL",
  "BH", "VM", "TF", "ST",
  "SP", "RL", "MM", "MD",
  "LS", "IF", "CE", "IW",
  "FP", "CC", "EE", "FR",
  "DR", "ZW", "SB", "MR",
  "DW", "KM"
]

/-- Recipe crafting direction (`class Direction(IntEnum)`). -/
inductive Direction where
  | COMBINE : Direction
  | SPLIT : Direction
deriving DecidableEq

/-- A recipe usable in either direction (`class Recipe`). -/
structure Recipe where
  reagents : List String
  result : String
  no_split : Bool := false
deriving DecidableEq

/-- Embeds `Recipe.get_recipe_string`: string representation based on direction. -/
def Recipe.get_recipe_string (r : Recipe) : Direction → String
  | Direction.COMBINE => String.intercalate " + " r.reagents ++ " = " ++ r.result
  | Direction.SPLIT => r.result ++ " -> " ++ String.intercalate " + " r.reagents

/-- A dynamically typed Python value, enough for `list` of `str` and `str`. -/
inductive PyVal where
  | str : String → PyVal
  | list : List PyVal → PyVal

/-- Semantics of Python's `+` on the values of `PyVal`: list + list and
str + str concatenate, mixing the two raises a `TypeError`. -/
def py_add : PyVal → PyVal → Except String PyVal
  | PyVal.list xs, PyVal.list ys => Except.ok (PyVal.list (xs ++ ys))
  | PyVal.str a, PyVal.str b => Except.ok (PyVal.str (a ++ b))
  | PyVal.list _, PyVal.str _ =>
      Except.error "TypeError: can only concatenate list (not str) to list"
  | PyVal.str _, PyVal.list _ =>
      Except.error "TypeError: can only concatenate str (not list) to str"

/-- Embeds `Recipe.get_all_elements`: the source evaluates `self.reagents + self.result`,
a Python `list + str`. -/
def Recipe.get_all_elements (r : Recipe) : Except String PyVal :=
  py_add (PyVal.list (r.reagents.map PyVal.str)) (PyVal.str r.result)

/-- Embeds `Recipe.is_trivial`: whether the recipe can be performed with the basic set
of ingredients (`set(self.reagents).issubset(base_ingredients)` for COMBINE,
`self.result in base_ingredients` for SPLIT). -/
def Recipe.is_trivial (r : Recipe) : Direction → Bool
  | Direction.COMBINE => r.reagents.all (fun x => decide (x ∈ base_ingredients))
  | Direction.SPLIT => decide (r.result ∈ base_ingredients)

/-- Embeds `Recipe.get_inputs`: the inputs for the recipe, based on crafting direction. -/
def Recipe.get_inputs (r : Recipe) : Direction → List String
  | Direction.SPLIT => [r.result]
  | Direction.COMBINE => r.reagents

/-- Embeds `Recipe.get_outputs`: the outputs for the recipe, based on crafting direction. -/
def Recipe.get_outputs (r : Recipe) : Direction → List String
  | Direction.SPLIT => r.reagents
  | Direction.COMBINE => [r.result]

/-- Embeds `Recipe.get_required_recipe_direction`: SPLIT if the target appears among
the reagents, COMBINE otherwise. -/
def Recipe.get_required_recipe_direction (r : Recipe) (target : String) : Direction :=
  if target ∈ r.reagents then Direction.SPLIT else Direction.COMBINE

/-- Embeds `Recipe.can_make`: whether the target element can be made with this recipe. -/
def Recipe.can_make (r : Recipe) (target : String) : Bool :=
  if target = r.result ∧ target ∉ r.reagents then
    true
  else if target ≠ r.result ∧ target ∈ r.reagents ∧ r.no_split = false then
    true
  else
    false

/-- The global `recipes` catalog from the source, verbatim and in order. -/
def recipes : List Recipe := [
  Recipe.mk ["SI", "WV"] "AC" false,
  Recipe.mk ["AC", "SB"] "DB" false,
  Recipe.mk ["ZW", "AC"] "BW" false,
  Recipe.mk ["WV"] "PW" false,
  Recipe.mk ["MR", "MR"] "RS" false,
  Recipe.mk ["DW", "WV"] "US" false,
  Recipe.mk ["KM", "US"] "WE" false,
  Recipe.mk ["PW", "RS"] "CW" false,
  Recipe.mk ["LT", "PF"] "PF" false,
  Recipe.mk ["PF", "FT"] "EA" false,
  Recipe.mk ["LT", "EA"] "FE" false,
  Recipe.mk ["FP", "IW"] "SI" false,
  Recipe.mk ["CC"] "HC" false,
  Recipe.mk ["HC", "SI"] "AH" false,
  Recipe.mk ["EA", "FS"] "HC" false,
  Recipe.mk ["HC", "FS"] "PS" false,
  Recipe.mk ["FR", "EE"] "GC" false,
  Recipe.mk ["DR"] "CS" false,
  Recipe.mk ["GC", "CS"] "ES" false,
  Recipe.mk ["DW"] "WV" false,
  Recipe.mk ["FE", "AH"] "RF" true,
  Recipe.mk ["PS", "ES"] "RE" true,
  Recipe.mk ["BW", "DB"] "RA" true,
  Recipe.mk ["CW", "WE"] "RW" true
]

/-- Embeds `get_valid_recipes`: scan the catalog in order, keeping each recipe whose
`can_make target` holds. Each kept recipe is paired with its catalog index,
which stands for Python object identity. -/
def get_valid_recipes (target : String) : List (Nat × Recipe) :=
  recipes.enum.filter (fun p => p.2.can_make target)

/-- Lines 163-165 of the source: `if previous_recipe in recipes_to_target:
recipes_to_target.remove(previous_recipe)`. A `None` previous recipe is never
a member; `.remove` deletes the first occurrence of the identical object. -/
def remove_previous (l : List (Nat × Recipe)) : Option (Nat × Recipe) → List (Nat × Recipe)
  | none => l
  | some p => if p ∈ l then l.erase p else l

/-- The inner reagent loop of `get_recipe_path` (lines 173-185), abstracted
over the recursive resolver call on one reagent. Result `none` is fuel
exhaustion inside a sub-call; `some none` means some reagent failed
(`solved_all_reagents = False`, with the loop broken at that reagent);
`some (some acc)` is the concatenated accumulator `reagent_recipe_list`. -/
def solve_reagents (resolve : String → Option (Bool × List String)) :
    List String → Option (Option (List String))
  | [] => some (some [])
  | reagent :: rest =>
    if reagent ∈ base_ingredients then
      solve_reagents resolve rest
    else
      match resolve reagent with
      | none => none
      | some (false, _) => some none
      | some (true, recipe_path) =>
        match solve_reagents resolve rest with
        | none => none
        | some none => some none
        | some (some acc) => some (some (recipe_path ++ acc))

/-- The candidate loop of `get_recipe_path` (lines 167-190), abstracted over
the recursive resolver: each candidate is tried in order; a trivial one returns
at once, a non-trivial one resolves its inputs with itself as the excluded
previous recipe; falling off the loop returns `(False, [])` (line 190). -/
def try_recipes (resolve : String → Option (Nat × Recipe) → Option (Bool × List String))
    (target : String) : List (Nat × Recipe) → Option (Bool × List String)
  | [] => some (false, [])
  | r :: rest =>
    let direction := r.2.get_required_recipe_direction target
    if r.2.is_trivial direction then
      some (true, [r.2.get_recipe_string direction])
    else
      match solve_reagents (fun reagent => resolve reagent (some r)) (r.2.get_inputs direction) with
      | none => none
      | some none => try_recipes resolve target rest
      | some (some acc) => some (true, acc ++ [r.2.get_recipe_string direction])

/-- Embeds `get_recipe_path`: recursively resolves a path of recipes that produces the
target, with explicit fuel bounding the recursion depth (`none` = out of fuel). -/
def get_recipe_path : Nat → String → Option (Nat × Recipe) → Option (Bool × List String)
  | 0, _, _ => none
  | fuel + 1, target, previous_recipe =>
    let recipes_to_target := get_valid_recipes target
    if recipes_to_target.length = 0 then
      some (false, [])
    else
      try_recipes (get_recipe_path fuel) target (remove_previous recipes_to_target previous_recipe)

/-- Embeds `print_recipe_path`: the list of lines the program prints for a target
(one line per step on success, a single failure message otherwise). -/
def print_recipe_path (fuel : Nat) (target : String) : Option (List String) :=
  match get_recipe_path fuel target none with
  | none => none
  | some (true, recipe_path) => some recipe_path
  | some (false, _) => some ["Failed to solve for " ++ target]

/-! ### Helper lemmas -/

/-- The enumerated catalog has no duplicate entries (indices are distinct). -/
lemma nodup_recipes_enum : recipes.enum.Nodup :=
  List.Nodup.of_map Prod.fst (List.nodup_enum_map_fst recipes)

/-- Candidate lists carry distinct (index, recipe) pairs. -/
lemma nodup_get_valid_recipes (target : String) : (get_valid_recipes target).Nodup :=
  List.Nodup.filter _ nodup_recipes_enum

/-- Any terminating run of the candidate loop yields `(False, [])` or a
`True` outcome with a non-empty path. -/
lemma try_recipes_shape
    (resolve : String → Option (Nat × Recipe) → Option (Bool × List String))
    (target : String) :
    ∀ (l : List (Nat × Recipe)) (b : Bool) (path : List String),
      try_recipes resolve target l = some (b, path) →
      (b = false ∧ path = []) ∨ (b = true ∧ path ≠ []) := by
  intro l
  induction l with
  | nil =>
    intro b path h
    simp only [try_recipes, Option.some.injEq, Prod.mk.injEq] at h
    exact Or.inl ⟨h.1.symm, h.2.symm⟩
  | cons r rest ih =>
    intro b path h
    unfold try_recipes at h
    by_cases htriv : r.2.is_trivial (r.2.get_required_recipe_direction target) = true
    · rw [if_pos htriv] at h
      simp only [Option.some.injEq, Prod.mk.injEq] at h
      exact Or.inr ⟨h.1.symm, by rw [← h.2]; simp⟩
    · rw [if_neg htriv] at h
      cases hs : solve_reagents
          (fun reagent => resolve reagent (some r))
          (r.2.get_inputs (r.2.get_required_recipe_direction target)) with
      | none => rw [hs] at h; exact absurd h (by simp)
      | some o =>
        rw [hs] at h
        cases o with
        | none => exact ih b path h
        | some acc =>
          simp only [Option.some.injEq, Prod.mk.injEq] at h
          refine Or.inr ⟨h.1.symm, ?_⟩
          rw [← h.2]
          exact List.append_ne_nil_of_right_ne_nil _ (by simp)

/-- Any terminating run of the resolver yields `(False, [])` or a `True`
outcome with a non-empty path. -/
lemma get_recipe_path_shape (fuel : Nat) (target : String)
    (prev : Option (Nat × Recipe)) (b : Bool) (path : List String)
    (h : get_recipe_path fuel target prev = some (b, path)) :
    (b = false ∧ path = []) ∨ (b = true ∧ path ≠ []) := by
  cases fuel with
  | zero => exact absurd h (by simp [get_recipe_path])
  | succ n =>
    unfold get_recipe_path at h
    by_cases hc : (get_valid_recipes target).length = 0
    · rw [if_pos hc] at h
      simp only [Option.some.injEq, Prod.mk.injEq] at h
      exact Or.inl ⟨h.1.symm, h.2.symm⟩
    · rw [if_neg hc] at h
      exact try_recipes_shape _ target _ b path h

/-- Transporting terminating reagent-loop runs along a resolver that preserves
all terminating answers. -/
lemma solve_reagents_mono {R S : String → Option (Bool × List String)}
    (hRS : ∀ s r, R s = some r → S s = some r) :
    ∀ (l : List String) (o : Option (List String)),
      solve_reagents R l = some o → solve_reagents S l = some o := by
  intro l
  induction l with
  | nil => intro o h; exact h
  | cons x xs ih =>
    intro o h
    unfold solve_reagents at h ⊢
    by_cases hx : x ∈ base_ingredients
    · rw [if_pos hx] at h ⊢
      exact ih o h
    · rw [if_neg hx] at h ⊢
      cases hRx : R x with
      | none => rw [hRx] at h; exact absurd h (by simp)
      | some br =>
        obtain ⟨b, path⟩ := br
        rw [hRx] at h
        rw [hRS x (b, path) hRx]
        cases b with
        | false => exact h
        | true =>
          cases hrec : solve_reagents R xs with
          | none => rw [hrec] at h; exact absurd h (by simp)
          | some o2 =>
            rw [hrec] at h
            rw [ih o2 hrec]
            exact h

/-- Transporting terminating candidate-loop runs along a resolver that
preserves all terminating answers. -/
lemma try_recipes_mono
    {R S : String → Option (Nat × Recipe) → Option (Bool × List String)}
    (hRS : ∀ s p r, R s p = some r → S s p = some r) (target : String) :
    ∀ (l : List (Nat × Recipe)) (r : Bool × List String),
      try_recipes R target l = some r → try_recipes S target l = some r := by
  intro l
  induction l with
  | nil => intro r h; exact h
  | cons c rest ih =>
    intro r h
    unfold try_recipes at h ⊢
    by_cases htriv : c.2.is_trivial (c.2.get_required_recipe_direction target) = true
    · rw [if_pos htriv] at h ⊢
      exact h
    · rw [if_neg htriv] at h ⊢
      cases hs : solve_reagents
          (fun reagent => R reagent (some c))
          (c.2.get_inputs (c.2.get_required_recipe_direction target)) with
      | none => rw [hs] at h; exact absurd h (by simp)
      | some o =>
        rw [hs] at h
        rw [solve_reagents_mono (fun s r' h' => hRS s (some c) r' h') _ o hs]
        cases o with
        | none => exact ih r h
        | some acc => exact h

/-- Fuel monotonicity: once the resolver terminates with some answer, any
larger fuel yields the same answer. -/
lemma get_recipe_path_mono :
    ∀ {fuel fuel' : Nat}, fuel ≤ fuel' →
      ∀ (target : String) (prev : Option (Nat × Recipe)) (r : Bool × List String),
        get_recipe_path fuel target prev = some r →
        get_recipe_path fuel' target prev = some r := by
  intro fuel
  induction fuel with
  | zero =>
    intro fuel' _ target prev r h
    exact absurd h (by simp [get_recipe_path])
  | succ n ih =>
    intro fuel' hle target prev r h
    obtain ⟨m, rfl⟩ : ∃ m, fuel' = m + 1 := ⟨fuel' - 1, by omega⟩
    unfold get_recipe_path at h ⊢
    by_cases hc : (get_valid_recipes target).length = 0
    · rw [if_pos hc] at h ⊢
      exact h
    · rw [if_neg hc] at h ⊢
      exact try_recipes_mono (fun s p r' h' => ih (by omega) s p r' h') target _ r h

/-! ### Claim theorems -/

/-- C1: `can_make target` holds iff target is the result and not a reagent
(pure forward production), or target is a reagent, differs from the result,
and `no_split` is off (pure decomposition); consequently a recipe whose
result also appears among its reagents can never produce that identifier. -/
theorem can_make_spec (r : Recipe) (target : String) :
    (r.can_make target = true ↔
      (target = r.result ∧ target ∉ r.reagents) ∨
      (target ≠ r.result ∧ target ∈ r.reagents ∧ r.no_split = false)) ∧
    (target = r.result → target ∈ r.reagents → r.can_make target = false) := by
  constructor
  · unfold Recipe.can_make
    split
    · rename_i h
      exact iff_of_true rfl (Or.inl h)
    · rename_i h1
      split
      · rename_i h2
        exact iff_of_true rfl (Or.inr h2)
      · rename_i h2
        constructor
        · intro hfalse
          exact absurd hfalse (by simp)
        · intro hor
          cases hor with
          | inl hl => exact absurd hl h1
          | inr hr => exact absurd hr h2
  · intro h1 h2
    unfold Recipe.can_make
    rw [if_neg (by tauto), if_neg (by tauto)]

/-- Witness for C1 at the self-referential catalog recipe
`Recipe(["LT", "PF"], "PF")`: it cannot make `"PF"` in either direction. -/
theorem can_make_spec_witness :
    (Recipe.mk ["LT", "PF"] "PF" false).can_make "PF" = false :=
  (can_make_spec (Recipe.mk ["LT", "PF"] "PF" false) "PF").2 rfl (by decide)

/-- C2: when the candidate loop reaches a recipe that is trivial in its
required direction, it returns at once with exactly that single rendered step,
for any remaining candidates and any fuel (so no recursion happens). -/
theorem trivial_candidate_returns (fuel : Nat) (target : String)
    (r : Nat × Recipe) (rest : List (Nat × Recipe))
    (h : r.2.is_trivial (r.2.get_required_recipe_direction target) = true) :
    try_recipes (get_recipe_path fuel) target (r :: rest) =
      some (true, [r.2.get_recipe_string (r.2.get_required_recipe_direction target)]) := by
  unfold try_recipes
  rw [if_pos h]

/-- Witness for C2 at catalog recipe 11, `Recipe(["FP", "IW"], "SI")`,
with zero fuel: the trivial combine step is returned immediately. -/
theorem trivial_candidate_returns_witness :
    (Recipe.mk ["FP", "IW"] "SI" false).is_trivial
      ((Recipe.mk ["FP", "IW"] "SI" false).get_required_recipe_direction "SI") = true ∧
    try_recipes (get_recipe_path 0) "SI"
        [(11, Recipe.mk ["FP", "IW"] "SI" false), (13, Recipe.mk ["HC", "SI"] "AH" false)] =
      some (true, ["FP + IW = SI"]) :=
  ⟨by decide,
    trivial_candidate_returns 0 "SI" (11, Recipe.mk ["FP", "IW"] "SI" false)
      [(13, Recipe.mk ["HC", "SI"] "AH" false)] (by decide)⟩

/-- C9: `get_all_elements` evaluates the Python expression
`self.reagents + self.result`, a `list + str`, which raises a `TypeError`
for every recipe; it never returns a list of elements. -/
theorem get_all_elements_type_error (r : Recipe) :
    r.get_all_elements =
      Except.error "TypeError: can only concatenate list (not str) to list" :=
  rfl

/-- C3: with the hardcoded catalog, resolving `"SI"` finds exactly the
one-step path `["FP + IW = SI"]`; the earlier split candidate
`Recipe(["SI", "WV"], "AC")` is tried first and fails. -/
theorem resolves_SI (fuel : Nat) (h : 10 ≤ fuel) :
    get_valid_recipes "SI" =
      [(0, Recipe.mk ["SI", "WV"] "AC" false),
       (11, Recipe.mk ["FP", "IW"] "SI" false),
       (13, Recipe.mk ["HC", "SI"] "AH" false)] ∧
    get_recipe_path fuel "AC" (some (0, Recipe.mk ["SI", "WV"] "AC" false)) =
      some (false, []) ∧
    get_recipe_path fuel "SI" none = some (true, ["FP + IW = SI"]) :=
  ⟨by decide,
   get_recipe_path_mono h _ _ _ (by decide),
   get_recipe_path_mono h _ _ _ (by decide)⟩

/-- Witness for C3 at fuel 10. -/
theorem resolves_SI_witness :
    get_recipe_path 10 "SI" none = some (true, ["FP + IW = SI"]) :=
  (resolves_SI 10 (by decide)).2.2

/-- C4: with the hardcoded catalog, resolving `"WV"` finds exactly the
one-step path `["DW = WV"]`; the non-trivial split candidates at catalog
indices 0, 3 and 5 each terminate and fail before the trivial combine recipe
`Recipe(["DW"], "WV")` is selected. -/
theorem resolves_WV (fuel : Nat) (h : 10 ≤ fuel) :
    get_valid_recipes "WV" =
      [(0, Recipe.mk ["SI", "WV"] "AC" false),
       (3, Recipe.mk ["WV"] "PW" false),
       (5, Recipe.mk ["DW", "WV"] "US" false),
       (19, Recipe.mk ["DW"] "WV" false)] ∧
    get_recipe_path fuel "AC" (some (0, Recipe.mk ["SI", "WV"] "AC" false)) =
      some (false, []) ∧
    get_recipe_path fuel "PW" (some (3, Recipe.mk ["WV"] "PW" false)) =
      some (false, []) ∧
    get_recipe_path fuel "US" (some (5, Recipe.mk ["DW", "WV"] "US" false)) =
      some (false, []) ∧
    get_recipe_path fuel "WV" none = some (true, ["DW = WV"]) :=
  ⟨by decide,
   get_recipe_path_mono h _ _ _ (by decide),
   get_recipe_path_mono h _ _ _ (by decide),
   get_recipe_path_mono h _ _ _ (by decide),
   get_recipe_path_mono h _ _ _ (by decide)⟩

/-- Witness for C4 at fuel 10. -/
theorem resolves_WV_witness :
    get_recipe_path 10 "WV" none = some (true, ["DW = WV"]) :=
  (resolves_WV 10 (by decide)).2.2.2.2

/-- C5: whenever no catalog recipe can make the target, the resolver returns
`(False, [])` immediately, and the program prints the failure message. -/
theorem no_candidates_not_found (fuel : Nat) (target : String)
    (prev : Option (Nat × Recipe)) (h : get_valid_recipes target = []) :
    get_recipe_path (fuel + 1) target prev = some (false, []) ∧
    print_recipe_path (fuel + 1) target = some ["Failed to solve for " ++ target] := by
  have key : ∀ p, get_recipe_path (fuel + 1) target p = some (false, []) := by
    intro p
    unfold get_recipe_path
    rw [h]
    simp
  refine ⟨key prev, ?_⟩
  unfold print_recipe_path
  rw [key none]

/-- Witness for C5 at the base element `"DF"`, which no recipe references. -/
theorem no_candidates_not_found_witness :
    get_valid_recipes "DF" = [] ∧
    get_recipe_path 1 "DF" none = some (false, []) ∧
    print_recipe_path 1 "DF" = some ["Failed to solve for DF"] :=
  ⟨by decide,
   (no_candidates_not_found 0 "DF" none (by decide)).1,
   (no_candidates_not_found 0 "DF" none (by decide)).2⟩

/-- C6: the reagent loop of a non-trivial candidate processes inputs in
sequence order: base elements are skipped, a failed recursive sub-call
abandons the whole candidate at once (the loop result is failure no matter
what inputs remain, and the candidate loop then moves to the next candidate),
and on success the sub-paths are concatenated in processing order with the
candidate's own rendered step placed last. -/
theorem reagent_loop_spec (fuel : Nat) (target : String) (r : Nat × Recipe)
    (rest : List (Nat × Recipe)) (x : String) (xs : List String) :
    (x ∈ base_ingredients →
      solve_reagents (fun s => get_recipe_path fuel s (some r)) (x :: xs) =
        solve_reagents (fun s => get_recipe_path fuel s (some r)) xs) ∧
    (x ∉ base_ingredients → ∀ p, get_recipe_path fuel x (some r) = some (false, p) →
      solve_reagents (fun s => get_recipe_path fuel s (some r)) (x :: xs) = some none) ∧
    (x ∉ base_ingredients → ∀ path acc,
      get_recipe_path fuel x (some r) = some (true, path) →
      solve_reagents (fun s => get_recipe_path fuel s (some r)) xs = some (some acc) →
      solve_reagents (fun s => get_recipe_path fuel s (some r)) (x :: xs) =
        some (some (path ++ acc))) ∧
    (r.2.is_trivial (r.2.get_required_recipe_direction target) = false →
      solve_reagents (fun s => get_recipe_path fuel s (some r))
          (r.2.get_inputs (r.2.get_required_recipe_direction target)) = some none →
      try_recipes (get_recipe_path fuel) target (r :: rest) =
        try_recipes (get_recipe_path fuel) target rest) ∧
    (r.2.is_trivial (r.2.get_required_recipe_direction target) = false → ∀ acc,
      solve_reagents (fun s => get_recipe_path fuel s (some r))
          (r.2.get_inputs (r.2.get_required_recipe_direction target)) = some (some acc) →
      try_recipes (get_recipe_path fuel) target (r :: rest) =
        some (true, acc ++ [r.2.get_recipe_string
          (r.2.get_required_recipe_direction target)])) := by
  refine ⟨?_, ?_, ?_, ?_, ?_⟩
  · intro hx
    rw [solve_reagents, if_pos hx]
  · intro hx p hres
    rw [solve_reagents, if_neg hx, hres]
  · intro hx path acc hres hrec
    rw [solve_reagents, if_neg hx, hres, hrec]
  · intro htriv hsolve
    rw [try_recipes]
    simp only [htriv, Bool.false_eq_true, if_false, hsolve]
  · intro htriv acc hsolve
    rw [try_recipes]
    simp only [htriv, Bool.false_eq_true, if_false, hsolve]

/-- Witness for C6: the base element `"DF"` is skipped, and the unresolvable
reagent `"QQ"` makes the loop fail immediately with `"WV"` left unprocessed. -/
theorem reagent_loop_spec_witness :
    ("DF" ∈ base_ingredients ∧
      solve_reagents
          (fun s => get_recipe_path 1 s (some (0, Recipe.mk ["SI", "WV"] "AC" false)))
          ["DF"] =
        some (some [])) ∧
    ("QQ" ∉ base_ingredients ∧
      get_recipe_path 1 "QQ" (some (0, Recipe.mk ["SI", "WV"] "AC" false)) =
        some (false, []) ∧
      solve_reagents
          (fun s => get_recipe_path 1 s (some (0, Recipe.mk ["SI", "WV"] "AC" false)))
          ["QQ", "WV"] =
        some none) :=
  ⟨⟨by decide,
    ((reagent_loop_spec 1 "AC" (0, Recipe.mk ["SI", "WV"] "AC" false) [] "DF" []).1
        (by decide)).trans rfl⟩,
   ⟨by decide, by decide,
    (reagent_loop_spec 1 "AC" (0, Recipe.mk ["SI", "WV"] "AC" false) [] "QQ" ["WV"]).2.1
      (by decide) [] (by decide)⟩⟩

/-- C7: candidate lists are in catalog order (a sublist of the enumerated
catalog); removing the previous recipe does nothing when there is none,
deletes exactly the identity-matched pair when there is one, and keeps every
other candidate, in order. -/
theorem previous_recipe_exclusion (target : String) (p q : Nat × Recipe) :
    List.Sublist (get_valid_recipes target) recipes.enum ∧
    remove_previous (get_valid_recipes target) none = get_valid_recipes target ∧
    List.Sublist (remove_previous (get_valid_recipes target) (some p))
      (get_valid_recipes target) ∧
    p ∉ remove_previous (get_valid_recipes target) (some p) ∧
    (q ∈ get_valid_recipes target → q ≠ p →
      q ∈ remove_previous (get_valid_recipes target) (some p)) := by
  refine ⟨List.filter_sublist _, rfl, ?_, ?_, ?_⟩
  · simp only [remove_previous]
    split
    · exact List.erase_sublist _ _
    · exact List.Sublist.refl _
  · simp only [remove_previous]
    split
    · exact (nodup_get_valid_recipes target).not_mem_erase
    · rename_i hmem
      exact hmem
  · intro hq hne
    simp only [remove_previous]
    split
    · exact (List.mem_erase_of_ne hne).2 hq
    · exact hq

/-- Witness for C7: excluding catalog entry 0 from the `"SI"` candidates
keeps the distinct entry 11. -/
theorem previous_recipe_exclusion_witness :
    (11, Recipe.mk ["FP", "IW"] "SI" false) ∈ get_valid_recipes "SI" ∧
    (11, Recipe.mk ["FP", "IW"] "SI" false) ≠ (0, Recipe.mk ["SI", "WV"] "AC" false) ∧
    (11, Recipe.mk ["FP", "IW"] "SI" false) ∈
      remove_previous (get_valid_recipes "SI")
        (some (0, Recipe.mk ["SI", "WV"] "AC" false)) :=
  ⟨by decide, by decide,
   (previous_recipe_exclusion "SI" (0, Recipe.mk ["SI", "WV"] "AC" false)
       (11, Recipe.mk ["FP", "IW"] "SI" false)).2.2.2.2 (by decide) (by decide)⟩

/-- C8: a terminating resolver run has exactly two outcomes: failure with an
empty path, or success with a non-empty path. -/
theorem resolver_two_outcomes (fuel : Nat) (target : String)
    (prev : Option (Nat × Recipe)) (b : Bool) (path : List String)
    (h : get_recipe_path fuel target prev = some (b, path)) :
    (b = false ∧ path = []) ∨ (b = true ∧ path ≠ []) :=
  get_recipe_path_shape fuel target prev b path h

/-- Witness for C8 at the successful `"SI"` run. -/
theorem resolver_two_outcomes_witness :
    get_recipe_path 10 "SI" none = some (true, ["FP + IW = SI"]) ∧
    ((true = false ∧ ["FP + IW = SI"] = ([] : List String)) ∨
      (true = true ∧ ["FP + IW = SI"] ≠ ([] : List String))) :=
  ⟨by decide,
   resolver_two_outcomes 10 "SI" none true ["FP + IW = SI"] (by decide)⟩

/-- C10: a terminating resolver run that fails returns exactly the pair
`(False, [])`; no partial accumulator is ever surfaced. -/
theorem failure_returns_empty_path (fuel : Nat) (target : String)
    (prev : Option (Nat × Recipe)) (res : Bool × List String)
    (h : get_recipe_path fuel target prev = some res) (hfail : res.1 = false) :
    res = (false, []) := by
  obtain ⟨b, path⟩ := res
  rcases get_recipe_path_shape fuel target prev b path h with ⟨hb, hp⟩ | ⟨hb, _⟩
  · rw [hb, hp]
  · rw [hb] at hfail
    exact absurd hfail (by simp)

/-- Witness for C10 at the failing `"DF"` run. -/
theorem failure_returns_empty_path_witness :
    get_recipe_path 1 "DF" none = some (false, []) ∧
    ((false, []) : Bool × List String) = (false, []) :=
  ⟨by decide,
   failure_returns_empty_path 1 "DF" none (false, []) (by decide) rfl⟩
